import Mathlib

/-!
Verification of the game-signaling-server repository.

Shallow embedding of:
* `src/signal_server.js` — the relay server (namespace `Server`);
* the older server variant appended at the bottom of the client file
  (namespace `Variant`);
* the client-side orchestrator `multiplayer/signaling.js`
  (namespace `Client`).

JavaScript `Map`s keyed by strings become Lean functions or association
lists; JS `Set`s of sockets become duplicate-free lists of connection
identifiers (insertion order preserved, as JS sets iterate in insertion
order); `Date.now()` and `crypto.randomUUID()` are passed in as event
parameters; network sends are collected as explicit output lists.
-/

namespace Server

/-- Connection identifier: stands for the identity of a `ws` socket object. -/
abbrev ConnId := Nat

/-- `MAX_ROOM_SIZE` from `signal_server.js`. -/
def MAX_ROOM_SIZE : Nat := 8

/-- `MAX_ROOM_ID_LEN` from `signal_server.js`. -/
def MAX_ROOM_ID_LEN : Nat := 64

/-- `RATE_LIMIT_WINDOW` (milliseconds) from `signal_server.js`. -/
def RATE_LIMIT_WINDOW : Nat := 1000

/-- `RATE_LIMIT_MAX_MSG` from `signal_server.js`. -/
def RATE_LIMIT_MAX_MSG : Nat := 30

/-- Per-connection server state: the `currentRoom` closure variable, the
`ws._peerId` property, the `ws._rateBucketStart` / `ws._rateBucketCount`
properties, and the socket's `readyState` (writable iff `1`). -/
structure Conn where
  currentRoom : Option String
  peerId : Option String
  rateBucketStart : Nat
  rateBucketCount : Nat
  readyState : Nat
deriving DecidableEq

/-- A parsed inbound JSON message: the fields the server ever reads.
`none` models an absent (or non-string) field. -/
structure InMsg where
  type : String
  roomId : Option String := none
  peerId : Option String := none
  sdp : Option String := none
  candidate : Option String := none
deriving DecidableEq

/-- Result of one `fetchIceServers` round against the Metered endpoint:
a network error, a body that fails `JSON.parse`, a parsed body that is
not an array, or a parsed array of server descriptors. -/
inductive FetchResult where
  | netError
  | unparseable
  | nonArray
  | arr (xs : List String)
deriving DecidableEq

/-- The `fetchIceServers` response handler: replaces `_cachedIceServers`
only when the body parses to a non-empty array; every other outcome keeps
the previous cache. -/
def updateIce (cache : List String) (r : FetchResult) : List String :=
  match r with
  | .netError => cache
  | .unparseable => cache
  | .nonArray => cache
  | .arr xs => if 0 < xs.length then xs else cache

/-- A fetch round that replaces the cache: a parsed non-empty array. -/
def fetchSuccess (r : FetchResult) : Bool :=
  match r with
  | .arr xs => decide (0 < xs.length)
  | _ => false

/-- Messages the server sends, tagged with their JSON `type`. A relayed
message is the sender's whole parsed message with its `peerId` field
overridden (`{ ...msg, peerId: ws._peerId }`). -/
inductive OutMsg where
  | roomFull
  | assignedPeerId (peerId : String) (iceServers : List String)
  | peerJoined (peerId : String)
  | relay (payload : InMsg)
deriving DecidableEq

/-- Whole-server state: the `rooms` map, the per-socket state, and the
`_cachedIceServers` cache. -/
structure ServerState where
  rooms : String → Option (List ConnId)
  conns : ConnId → Option Conn
  ice : List String

/-- The character class of the sanitiser's regex: `[a-zA-Z0-9_-]`. -/
def allowedChar (c : Char) : Bool :=
  decide ((('a' ≤ c ∧ c ≤ 'z') ∨ ('A' ≤ c ∧ c ≤ 'Z') ∨
    ('0' ≤ c ∧ c ≤ '9') ∨ c = '_' ∨ c = '-'))

/-- `sanitiseRoomId`: non-strings become `''`; otherwise strip characters
outside the safe alphabet and truncate to `MAX_ROOM_ID_LEN`. -/
def sanitiseRoomId (raw : Option String) : String :=
  match raw with
  | none => ""
  | some s => String.mk ((s.data.filter allowedChar).take MAX_ROOM_ID_LEN)

/-- `rateAllow`: fixed-window counter.  If more than a window has passed
since the window start, reset the start and the counter; then count this
message and allow it iff the counter is within the cap.  (JS computes
`now - start` with real numbers; for `now ≥ start` truncated `Nat`
subtraction agrees, and for `now < start` both sides make the comparison
false.) -/
def rateAllow (now : Nat) (c : Conn) : Bool × Conn :=
  let c1 := if RATE_LIMIT_WINDOW < now - c.rateBucketStart then
    { c with rateBucketStart := now, rateBucketCount := 0 } else c
  let c2 := { c1 with rateBucketCount := c1.rateBucketCount + 1 }
  (decide (c2.rateBucketCount ≤ RATE_LIMIT_MAX_MSG), c2)

/-- `peer.readyState === 1` for the socket `p`; a socket with no live
connection state is not writable. -/
def isWritable (s : ServerState) (p : ConnId) : Bool :=
  match s.conns p with
  | some c => decide (c.readyState = 1)
  | none => false

/-- The message types the relay branch forwards. -/
def relayTypes : List String := ["OFFER", "ANSWER", "ICE_CANDIDATE"]

/-- The successful tail of the `JOIN_ROOM` branch: set `currentRoom`,
create the room if absent, add the socket to the member set (JS `Set.add`
is a no-op on an existing member), assign a fresh `_peerId`, reply
`ASSIGNED_PEER_ID` with the cached ICE servers, and notify every other
writable member with `PEER_JOINED`. -/
def doJoin (fresh : String) (id : ConnId) (roomId : String) (ms : List ConnId)
    (s : ServerState) (c : Conn) : ServerState × List (ConnId × OutMsg) :=
  let ms2 := if id ∈ ms then ms else ms ++ [id]
  let c2 := { c with currentRoom := some roomId, peerId := some fresh }
  let s2 : ServerState :=
    { s with rooms := fun x => if x = roomId then some ms2 else s.rooms x,
             conns := fun i => if i = id then some c2 else s.conns i }
  (s2, (id, OutMsg.assignedPeerId fresh s.ice) ::
    ms2.filterMap (fun p =>
      if p ≠ id ∧ isWritable s2 p then some (p, OutMsg.peerJoined fresh) else none))

/-- Dispatch of a parsed, rate-admitted message: the `JOIN_ROOM` branch
(sanitise, capacity check, join), then the `if (!currentRoom) return`
guard, then the relay branch for `OFFER`/`ANSWER`/`ICE_CANDIDATE`.
`c` is the sender's connection state (already stored in `s`). -/
def dispatch (fresh : String) (id : ConnId) (msg : InMsg) (s : ServerState)
    (c : Conn) : ServerState × List (ConnId × OutMsg) :=
  if msg.type = "JOIN_ROOM" then
    let roomId := sanitiseRoomId msg.roomId
    if roomId = "" then (s, [])
    else
      match s.rooms roomId with
      | some ms =>
        if MAX_ROOM_SIZE ≤ ms.length then (s, [(id, OutMsg.roomFull)])
        else doJoin fresh id roomId ms s c
      | none => doJoin fresh id roomId [] s c
  else
    match c.currentRoom with
    | none => (s, [])
    | some rm =>
      if msg.type ∈ relayTypes then
        match s.rooms rm with
        | none => (s, [])
        | some ms =>
          (s, ms.filterMap (fun p =>
            if p ≠ id ∧ isWritable s p then
              some (p, OutMsg.relay { msg with peerId := c.peerId }) else none))
      else (s, [])

/-- The `ws.on('message')` handler: rate-limit admission (the counter is
updated even for dropped or malformed messages), JSON parse
(`parsed = none` models a parse failure), then dispatch. -/
def handleMessage (now : Nat) (fresh : String) (id : ConnId)
    (parsed : Option InMsg) (s : ServerState) :
    ServerState × List (ConnId × OutMsg) :=
  match s.conns id with
  | none => (s, [])
  | some c0 =>
    let r := rateAllow now c0
    let s1 : ServerState :=
      { s with conns := fun i => if i = id then some r.2 else s.conns i }
    if r.1 = false then (s1, [])
    else
      match parsed with
      | none => (s1, [])
      | some msg => dispatch fresh id msg s1 r.2

/-- The `wss.on('connection')` handler: fresh per-socket state. -/
def handleConnect (id : ConnId) (now : Nat) (s : ServerState) : ServerState :=
  match s.conns id with
  | some _ => s
  | none =>
    let c : Conn := { currentRoom := none, peerId := none, rateBucketStart := now,
                      rateBucketCount := 0, readyState := 1 }
    { s with conns := fun i => if i = id then some c else s.conns i }

/-- The `ws.on('close')` handler: remove the socket from its current room
and delete the room when it becomes empty; the connection state is gone
afterwards. -/
def handleClose (id : ConnId) (s : ServerState) : ServerState :=
  match s.conns id with
  | none => s
  | some c =>
    let s1 : ServerState :=
      match c.currentRoom with
      | none => s
      | some r =>
        match s.rooms r with
        | none => s
        | some ms =>
          let ms2 := ms.erase id
          if ms2.length = 0 then
            { s with rooms := fun x => if x = r then none else s.rooms x }
          else
            { s with rooms := fun x => if x = r then some ms2 else s.rooms x }
    { s1 with conns := fun i => if i = id then none else s1.conns i }

/-- The transport layer changing a socket's `readyState`. -/
def handleSetReady (id : ConnId) (v : Nat) (s : ServerState) : ServerState :=
  match s.conns id with
  | none => s
  | some c =>
    { s with conns := fun i => if i = id then some { c with readyState := v }
        else s.conns i }

/-- An externally triggered event of the server process. -/
inductive Event where
  | connect (id : ConnId) (now : Nat)
  | message (id : ConnId) (now : Nat) (fresh : String) (parsed : Option InMsg)
  | close (id : ConnId)
  | setReady (id : ConnId) (v : Nat)
  | fetch (r : FetchResult)

/-- One step of the server on an event (outputs discarded). -/
def stepEv (s : ServerState) (e : Event) : ServerState :=
  match e with
  | .connect id now => handleConnect id now s
  | .message id now fresh parsed => (handleMessage now fresh id parsed s).1
  | .close id => handleClose id s
  | .setReady id v => handleSetReady id v s
  | .fetch r => { s with ice := updateIce s.ice r }

/-- The state at process start: no rooms, no connections, empty ICE cache. -/
def initState : ServerState :=
  { rooms := fun _ => none, conns := fun _ => none, ice := [] }

/-- Run the server from start on a list of events. -/
def runServer (evs : List Event) : ServerState := evs.foldl stepEv initState

/-- A state the server process can actually be in. -/
def Reachable (s : ServerState) : Prop := ∃ evs, runServer evs = s

/-- The fetch results contained in an event list, in order. -/
def fetchesOf (evs : List Event) : List FetchResult :=
  evs.filterMap (fun e => match e with | .fetch r => some r | _ => none)

end Server

namespace Variant

/-!
The second server implementation, appended at the bottom of the client
file: no sanitisation, no capacity check, no rate limiter, no ICE cache,
and a close handler that removes the member but never deletes the
empty room.  Its `rooms` map is keyed by the raw `msg.roomId` (which may
be absent, hence the `Option String` key).
-/

abbrev ConnId := Server.ConnId

/-- Per-connection state of the variant server: the `currentRoom` closure
variable, `ws._peerId`, and the socket's `readyState`. -/
structure Conn where
  currentRoom : Option (Option String)
  peerId : Option String
  readyState : Nat
deriving DecidableEq

/-- Variant server state: the `rooms` map and the per-socket state. -/
structure VState where
  rooms : Option String → Option (List ConnId)
  conns : ConnId → Option Conn

/-- `peer.readyState === 1` in the variant server. -/
def isWritable (s : VState) (p : ConnId) : Bool :=
  match s.conns p with
  | some c => decide (c.readyState = 1)
  | none => false

/-- The variant `ws.on('message')` handler: `JOIN_ROOM` stores the raw
`roomId`, adds the socket, assigns a fresh id and notifies the others;
`OFFER`/`ANSWER`/`ICE_CANDIDATE` are relayed re-stamped. -/
def handleMessage (fresh : String) (id : ConnId) (parsed : Option Server.InMsg)
    (s : VState) : VState × List (ConnId × Server.OutMsg) :=
  match s.conns id with
  | none => (s, [])
  | some c =>
    match parsed with
    | none => (s, [])
    | some msg =>
      if msg.type = "JOIN_ROOM" then
        let ms := (s.rooms msg.roomId).getD []
        let ms2 := if id ∈ ms then ms else ms ++ [id]
        let c2 := { c with currentRoom := some msg.roomId, peerId := some fresh }
        let s2 : VState :=
          { rooms := fun x => if x = msg.roomId then some ms2 else s.rooms x,
            conns := fun i => if i = id then some c2 else s.conns i }
        (s2, (id, Server.OutMsg.assignedPeerId fresh []) ::
          ms2.filterMap (fun p =>
            if p ≠ id ∧ isWritable s2 p then
              some (p, Server.OutMsg.peerJoined fresh) else none))
      else if msg.type ∈ Server.relayTypes then
        match c.currentRoom with
        | none => (s, [])
        | some rm =>
          match s.rooms rm with
          | none => (s, [])
          | some ms =>
            (s, ms.filterMap (fun p =>
              if p ≠ id ∧ isWritable s p then
                some (p, Server.OutMsg.relay { msg with peerId := c.peerId })
              else none))
      else (s, [])

/-- The variant `wss.on('connection')` handler. -/
def handleConnect (id : ConnId) (s : VState) : VState :=
  match s.conns id with
  | some _ => s
  | none =>
    let c : Conn := { currentRoom := none, peerId := none, readyState := 1 }
    { s with conns := fun i => if i = id then some c else s.conns i }

/-- The variant `ws.on('close')` handler: deletes the socket from its room
but never deletes the (possibly now empty) room itself. -/
def handleClose (id : ConnId) (s : VState) : VState :=
  match s.conns id with
  | none => s
  | some c =>
    let s1 : VState :=
      match c.currentRoom with
      | none => s
      | some r =>
        match s.rooms r with
        | none => s
        | some ms =>
          { s with rooms := fun x => if x = r then some (ms.erase id) else s.rooms x }
    { s1 with conns := fun i => if i = id then none else s1.conns i }

/-- The events driving the variant server. -/
inductive Event where
  | connect (id : ConnId)
  | message (id : ConnId) (fresh : String) (parsed : Option Server.InMsg)
  | close (id : ConnId)

/-- One step of the variant server. -/
def stepEv (s : VState) (e : Event) : VState :=
  match e with
  | .connect id => handleConnect id s
  | .message id fresh parsed => (handleMessage fresh id parsed s).1
  | .close id => handleClose id s

/-- Variant server state at process start. -/
def initState : VState := { rooms := fun _ => none, conns := fun _ => none }

/-- Run the variant server from start on a list of events. -/
def runServer (evs : List Event) : VState := evs.foldl stepEv initState

end Variant

namespace Client

/-!
The client-side orchestrator of `multiplayer/signaling.js`.  Peer
transports (`RTCPeerConnection` objects) and data channels live in
arenas indexed by handles, so that object identity survives a map entry
being overwritten.  The externally produced session descriptions
(`createOffer` / `createAnswer`) enter as event parameters.  The peer
transport collaborator follows its standard contract: `addIceCandidate`
rejects when no remote description has been set (the handler's
`try/catch` swallows that rejection).
-/

/-- The state of one `RTCPeerConnection` object, plus the registration
state of the callbacks the orchestrator installs on it and the remote
peer id its callbacks captured. -/
structure PCRec where
  remotePid : Option String
  remoteDescSet : Bool
  signalingState : String
  addedCandidates : List String
  closed : Bool
  onIceRegistered : Bool
  onDataChannelRegistered : Bool
deriving DecidableEq

/-- A message arriving on the signaling socket, as the client reads it. -/
structure CMsg where
  type : String
  peerId : Option String := none
  sdp : Option String := none
  candidate : Option String := none
  iceServers : Option (List String) := none
deriving DecidableEq

/-- Messages the client sends to the signaling server. -/
inductive COut where
  | offerMsg (peerId : Option String) (sdp : String)
  | answerMsg (peerId : Option String) (sdp : String)
  | candMsg (peerId : Option String) (candidate : String)
deriving DecidableEq

/-- `Map.get` on a JS map (assoc list, insertion order). -/
def mapGet (m : List (Option String × Nat)) (k : Option String) : Option Nat :=
  match m with
  | [] => none
  | (k2, v) :: rest => if k2 = k then some v else mapGet rest k

/-- `Map.set` on a JS map: replace in place, or append a fresh key. -/
def mapSet (m : List (Option String × Nat)) (k : Option String) (v : Nat) :
    List (Option String × Nat) :=
  match m with
  | [] => [(k, v)]
  | (k2, v2) :: rest =>
    if k2 = k then (k2, v) :: rest else (k2, v2) :: mapSet rest k v

/-- The fallback STUN configuration `DEFAULT_ICE`. -/
def DEFAULT_ICE : List String :=
  ["stun:stun.l.google.com:19302", "stun:stun1.l.google.com:19302"]

/-- Orchestrator state: the transport arena, a data-channel allocation
counter, the `peerConnections` and `dataChannels` maps (values are arena
handles and channel numbers), `_myPeerId`, and `_resolvedIceServers`. -/
structure ClientState where
  pcs : List PCRec
  nextCh : Nat
  peerConnections : List (Option String × Nat)
  dataChannels : List (Option String × Nat)
  myPeerId : Option String
  resolvedIce : List String
deriving DecidableEq

/-- Replace the arena record at handle `h`. -/
def setPC (s : ClientState) (h : Nat) (pc : PCRec) : ClientState :=
  { s with pcs := s.pcs.set h pc }

/-- `_hostCreateOffer`: fresh transport (no remote description, local
offer set), stored in `peerConnections`; a locally created data channel
is wired immediately (`_setupChannel` stores it in `dataChannels`);
candidate and channel callbacks registered; the offer is sent. -/
def hostCreateOffer (pid : Option String) (extSdp : String) (s : ClientState) :
    ClientState × List COut :=
  let pc : PCRec :=
    { remotePid := pid, remoteDescSet := false,
      signalingState := "have-local-offer", addedCandidates := [],
      closed := false, onIceRegistered := true, onDataChannelRegistered := false }
  let h := s.pcs.length
  let s2 :=
    { s with pcs := s.pcs ++ [pc],
             peerConnections := mapSet s.peerConnections pid h,
             dataChannels := mapSet s.dataChannels pid s.nextCh,
             nextCh := s.nextCh + 1 }
  (s2, [COut.offerMsg pid extSdp])

/-- The transport record `_clientHandleOffer` ends up with for peer
`pid`: remote offer applied, local answer set, `ondatachannel` and
`onicecandidate` registered, nothing closed. -/
def freshOfferPC (pid : Option String) : PCRec :=
  { remotePid := pid, remoteDescSet := true,
    signalingState := "stable", addedCandidates := [],
    closed := false, onIceRegistered := true, onDataChannelRegistered := true }

/-- `_clientHandleOffer`: fresh transport stored in `peerConnections`
(overwriting any previous handle), `ondatachannel` and `onicecandidate`
registered, remote offer applied, local answer set and sent.  The data
channel itself is stored only when the channel event later fires. -/
def clientHandleOffer (pid : Option String) (extSdp : String) (s : ClientState) :
    ClientState × List COut :=
  let pc : PCRec := freshOfferPC pid
  let h := s.pcs.length
  let s2 :=
    { s with pcs := s.pcs ++ [pc],
             peerConnections := mapSet s.peerConnections pid h }
  (s2, [COut.answerMsg pid extSdp])

/-- The signaling-socket `message` handler of `connectSignaling`.
`extSdp` is the session description the local transport would produce
when this message makes the client reply. -/
def handleSignal (role : String) (msg : CMsg) (extSdp : String)
    (s : ClientState) : ClientState × List COut :=
  if msg.type = "ASSIGNED_PEER_ID" then
    let s1 := { s with myPeerId := msg.peerId }
    match msg.iceServers with
    | some l => if 0 < l.length then ({ s1 with resolvedIce := l }, []) else (s1, [])
    | none => (s1, [])
  else if msg.type = "PEER_JOINED" then
    if role = "host" then hostCreateOffer msg.peerId extSdp s else (s, [])
  else if msg.type = "OFFER" then
    if role = "client" then clientHandleOffer msg.peerId extSdp s else (s, [])
  else if msg.type = "ANSWER" then
    match mapGet s.peerConnections msg.peerId with
    | none => (s, [])
    | some h =>
      match s.pcs.get? h with
      | none => (s, [])
      | some pc =>
        if pc.signalingState = "have-local-offer" then
          (setPC s h { pc with remoteDescSet := true, signalingState := "stable" }, [])
        else (s, [])
  else if msg.type = "ICE_CANDIDATE" then
    match mapGet s.peerConnections msg.peerId with
    | none => (s, [])
    | some h =>
      match msg.candidate with
      | none => (s, [])
      | some cand =>
        match s.pcs.get? h with
        | none => (s, [])
        | some pc =>
          if pc.remoteDescSet then
            (setPC s h { pc with addedCandidates := pc.addedCandidates ++ [cand] }, [])
          else (s, [])
  else (s, [])

/-- The events driving one connected orchestrator. -/
inductive CEvent where
  | signal (msg : CMsg) (extSdp : String)
  | channelEvent (h : Nat)
  | localCand (h : Nat) (cand : String)

/-- One step of the orchestrator: a signaling message, the transport at
handle `h` delivering the remote-created data channel (client side), or
the transport at handle `h` emitting a local candidate. -/
def clientStep (role : String) (s : ClientState) (e : CEvent) : ClientState :=
  match e with
  | .signal msg extSdp => (handleSignal role msg extSdp s).1
  | .channelEvent h =>
    match s.pcs.get? h with
    | none => s
    | some pc =>
      if pc.onDataChannelRegistered then
        { s with dataChannels := mapSet s.dataChannels pc.remotePid s.nextCh,
                 nextCh := s.nextCh + 1 }
      else s
  | .localCand _ _ => s

/-- The candidate a `localCand` event makes the orchestrator send (the
`onicecandidate` callback, when still registered). -/
def localCandOut (s : ClientState) (h : Nat) (cand : String) : List COut :=
  match s.pcs.get? h with
  | none => []
  | some pc =>
    if pc.onIceRegistered then [COut.candMsg pc.remotePid cand] else []

/-- Orchestrator state right after `connectSignaling`'s `resetSignaling`:
empty maps and arena, fallback ICE configuration. -/
def initClient : ClientState :=
  { pcs := [], nextCh := 0, peerConnections := [], dataChannels := [],
    myPeerId := none, resolvedIce := DEFAULT_ICE }

/-- Run one orchestrator from its reset state on a list of events. -/
def clientRun (role : String) (evs : List CEvent) : ClientState :=
  evs.foldl (clientStep role) initClient

end Client

namespace Server

/-- The registry well-formedness invariant: every room present in the
registry has at least one member, at most `MAX_ROOM_SIZE` members, and no
duplicate members. -/
def RoomsOK (s : ServerState) : Prop :=
  ∀ r ms, s.rooms r = some ms → ms ≠ [] ∧ ms.length ≤ MAX_ROOM_SIZE ∧ ms.Nodup

theorem rateAllow_fields (now : Nat) (c : Conn) :
    (rateAllow now c).2.currentRoom = c.currentRoom ∧
    (rateAllow now c).2.peerId = c.peerId := by
  unfold rateAllow
  split <;> exact ⟨rfl, rfl⟩

theorem doJoin_roomsOK (fresh : String) (id : ConnId) (roomId : String)
    (ms : List ConnId) (s : ServerState) (c : Conn)
    (hok : RoomsOK s)
    (hms : ms ≠ [] → ms.length < MAX_ROOM_SIZE ∧ ms.Nodup) :
    RoomsOK (doJoin fresh id roomId ms s c).1 := by
  intro r ms' h
  unfold doJoin at h
  simp only at h
  by_cases hr : r = roomId
  · subst hr
    rw [if_pos rfl] at h
    by_cases hid : id ∈ ms
    · rw [if_pos hid] at h
      obtain rfl : ms = ms' := Option.some_inj.mp h
      refine ⟨?_, ?_, ?_⟩
      · exact fun he => absurd (he ▸ hid) (List.not_mem_nil id)
      · exact le_of_lt (hms (fun he => absurd (he ▸ hid) (List.not_mem_nil id))).1
      · exact (hms (fun he => absurd (he ▸ hid) (List.not_mem_nil id))).2
    · rw [if_neg hid] at h
      obtain rfl : ms ++ [id] = ms' := Option.some_inj.mp h
      rcases Decidable.em (ms = []) with he | he
      · subst he
        simp [MAX_ROOM_SIZE]
      · refine ⟨by simp, ?_, ?_⟩
        · have := (hms he).1
          simp only [List.length_append, List.length_singleton]
          omega
        · simp [List.nodup_append, (hms he).2, hid]
  · rw [if_neg hr] at h
    exact hok r ms' h

theorem dispatch_roomsOK (fresh : String) (id : ConnId) (msg : InMsg)
    (s : ServerState) (c : Conn) (hok : RoomsOK s) :
    RoomsOK (dispatch fresh id msg s c).1 := by
  unfold dispatch
  split
  · dsimp only
    split
    · exact hok
    · split
      next ms heq =>
        split
        · exact hok
        next hlen =>
          apply doJoin_roomsOK _ _ _ _ _ _ hok
          intro _
          have h2 := hok _ _ heq
          exact ⟨by omega, h2.2.2⟩
      next heq =>
        apply doJoin_roomsOK _ _ _ _ _ _ hok
        intro he
        exact absurd rfl he
  · split
    · exact hok
    · split
      · split
        · exact hok
        · exact hok
      · exact hok

theorem handleMessage_roomsOK (now : Nat) (fresh : String) (id : ConnId)
    (parsed : Option InMsg) (s : ServerState) (hok : RoomsOK s) :
    RoomsOK (handleMessage now fresh id parsed s).1 := by
  unfold handleMessage
  split
  · exact hok
  all_goals dsimp only
  all_goals split
  all_goals try split
  all_goals first
    | exact hok
    | exact dispatch_roomsOK _ _ _ _ _ hok

theorem handleClose_roomsOK (id : ConnId) (s : ServerState) (hok : RoomsOK s) :
    RoomsOK (handleClose id s) := by
  unfold handleClose
  split
  · exact hok
  next c heq =>
    intro r ms h
    simp only at h
    revert h
    split
    · exact fun h => hok r ms h
    next rm hroom =>
      split
      · exact fun h => hok r ms h
      next ms0 heq0 =>
        split
        next hlen =>
          simp only
          by_cases hr : r = rm
          · subst hr
            rw [if_pos rfl]
            intro h
            exact absurd h (by simp)
          · rw [if_neg hr]
            exact fun h => hok r ms h
        next hlen =>
          simp only
          by_cases hr : r = rm
          · subst hr
            rw [if_pos rfl]
            intro h
            obtain rfl : ms0.erase id = ms := Option.some_inj.mp h
            have h2 := hok _ _ heq0
            refine ⟨fun he => hlen (by simp [he]), ?_, h2.2.2.erase id⟩
            exact le_trans (List.erase_sublist id ms0).length_le h2.2.1
          · rw [if_neg hr]
            exact fun h => hok r ms h

theorem stepEv_roomsOK (s : ServerState) (e : Event) (hok : RoomsOK s) :
    RoomsOK (stepEv s e) := by
  cases e with
  | connect id now =>
    simp only [stepEv]
    unfold handleConnect
    split
    · exact hok
    · exact hok
  | message id now fresh parsed => exact handleMessage_roomsOK _ _ _ _ _ hok
  | close id => exact handleClose_roomsOK _ _ hok
  | setReady id v =>
    simp only [stepEv]
    unfold handleSetReady
    split
    · exact hok
    · exact hok
  | fetch r => exact hok

theorem foldl_roomsOK (evs : List Event) (s : ServerState) (hok : RoomsOK s) :
    RoomsOK (evs.foldl stepEv s) := by
  induction evs generalizing s with
  | nil => exact hok
  | cons e rest ih => exact ih _ (stepEv_roomsOK s e hok)

/-- Every reachable server state has a well-formed registry. -/
theorem reachable_roomsOK (s : ServerState) (h : Reachable s) : RoomsOK s := by
  obtain ⟨evs, rfl⟩ := h
  exact foldl_roomsOK evs initState (fun r ms h => by simp [initState] at h)

/-- The state after the rate limiter has recorded one message from `id`
(and nothing else happened): what a dropped message leaves behind. -/
def rateUpd (now : Nat) (id : ConnId) (c : Conn) (s : ServerState) : ServerState :=
  { s with conns := fun i => if i = id then some (rateAllow now c).2 else s.conns i }

theorem handleMessage_eq (now : Nat) (fresh : String) (id : ConnId)
    (parsed : Option InMsg) (s : ServerState) (c : Conn)
    (hc : s.conns id = some c) :
    handleMessage now fresh id parsed s =
      if (rateAllow now c).1 = false then (rateUpd now id c s, [])
      else
        match parsed with
        | none => (rateUpd now id c s, [])
        | some msg => dispatch fresh id msg (rateUpd now id c s) (rateAllow now c).2 := by
  unfold handleMessage rateUpd
  rw [hc]

theorem rateUpd_rooms (now : Nat) (id : ConnId) (c : Conn) (s : ServerState) :
    (rateUpd now id c s).rooms = s.rooms := rfl

theorem rateUpd_ice (now : Nat) (id : ConnId) (c : Conn) (s : ServerState) :
    (rateUpd now id c s).ice = s.ice := rfl

/-- A server with one freshly accepted connection (socket 0, time 5). -/
def exState1 : ServerState := runServer [Event.connect 0 5]

/-- The connection state socket 0 holds in `exState1`. -/
def exConn : Conn :=
  { currentRoom := none, peerId := none, rateBucketStart := 5,
    rateBucketCount := 0, readyState := 1 }

end Server

/-- C8: every sanitised room identifier uses only the permitted alphabet
`[a-zA-Z0-9_-]` and is at most `MAX_ROOM_ID_LEN` characters long, and a
`JOIN_ROOM` whose identifier sanitises to the empty string is dropped:
no reply, and the only state change is the rate-limiter bookkeeping that
precedes parsing. -/
theorem spec_c8 :
    (∀ raw, (Server.sanitiseRoomId raw).data.all Server.allowedChar = true ∧
      (Server.sanitiseRoomId raw).length ≤ Server.MAX_ROOM_ID_LEN) ∧
    (∀ now fresh id msg s c, s.conns id = some c →
      msg.type = "JOIN_ROOM" → Server.sanitiseRoomId msg.roomId = "" →
      Server.handleMessage now fresh id (some msg) s =
        (Server.rateUpd now id c s, [])) := by
  constructor
  · intro raw
    cases raw with
    | none => exact ⟨rfl, by decide⟩
    | some str =>
      constructor
      · rw [List.all_eq_true]
        intro ch hch
        have h1 : ch ∈ str.data.filter Server.allowedChar :=
          List.take_subset _ _ hch
        exact (List.mem_filter.mp h1).2
      · show (String.mk _).length ≤ _
        simp [String.length, List.length_take]
  · intro now fresh id msg s c hc hty hsan
    rw [Server.handleMessage_eq now fresh id (some msg) s c hc]
    split
    · rfl
    · simp [Server.dispatch, hty, hsan]

/-- Witness for C8 at a concrete identifier and a concrete join. -/
theorem spec_c8_witness :
    ((Server.sanitiseRoomId (some "a!b")).data.all Server.allowedChar = true ∧
      (Server.sanitiseRoomId (some "a!b")).length ≤ Server.MAX_ROOM_ID_LEN) ∧
    (Server.exState1.conns 0 = some Server.exConn ∧
      (Server.InMsg.mk "JOIN_ROOM" (some "!!!") none none none).type = "JOIN_ROOM" ∧
      Server.sanitiseRoomId (some "!!!") = "" ∧
      Server.handleMessage 6 "f" 0
          (some (Server.InMsg.mk "JOIN_ROOM" (some "!!!") none none none))
          Server.exState1 =
        (Server.rateUpd 6 0 Server.exConn Server.exState1, [])) :=
  ⟨spec_c8.1 (some "a!b"),
   by decide, rfl, by decide,
   spec_c8.2 6 "f" 0 (Server.InMsg.mk "JOIN_ROOM" (some "!!!") none none none)
     Server.exState1 Server.exConn (by decide) rfl (by decide)⟩

namespace Server

/-- The `JOIN_ROOM` message used by the witness traces. -/
def exJr : InMsg := { type := "JOIN_ROOM", roomId := some "r" }

/-- A trace that fills room `"r"` to capacity: nine sockets accepted,
the first eight joined. -/
def fullEvs : List Event :=
  [ Event.connect 0 0, Event.connect 1 0, Event.connect 2 0,
    Event.connect 3 0, Event.connect 4 0, Event.connect 5 0,
    Event.connect 6 0, Event.connect 7 0, Event.connect 8 0,
    Event.message 0 1 "q0" (some exJr), Event.message 1 1 "q1" (some exJr),
    Event.message 2 1 "q2" (some exJr), Event.message 3 1 "q3" (some exJr),
    Event.message 4 1 "q4" (some exJr), Event.message 5 1 "q5" (some exJr),
    Event.message 6 1 "q6" (some exJr), Event.message 7 1 "q7" (some exJr) ]

/-- The server state after `fullEvs`: room `"r"` is at capacity and
socket 8 has not joined anywhere. -/
def fullState : ServerState := runServer fullEvs

/-- The connection state socket 8 holds in `fullState`. -/
def exConn8 : Conn :=
  { currentRoom := none, peerId := none, rateBucketStart := 0,
    rateBucketCount := 0, readyState := 1 }

end Server

/-- C2: in every reachable server state no room exceeds `MAX_ROOM_SIZE`
members, and a rate-admitted `JOIN_ROOM` aimed at a room already at
capacity gets exactly a `ROOM_FULL` reply while the registry and the
sender's room/peer-id state stay unchanged (only the rate counter that
precedes parsing moves). -/
theorem spec_c2 :
    (∀ s, Server.Reachable s → ∀ r ms, s.rooms r = some ms →
      ms.length ≤ Server.MAX_ROOM_SIZE) ∧
    (∀ now fresh id msg s c ms, s.conns id = some c →
      (Server.rateAllow now c).1 = true →
      msg.type = "JOIN_ROOM" →
      s.rooms (Server.sanitiseRoomId msg.roomId) = some ms →
      Server.sanitiseRoomId msg.roomId ≠ "" →
      Server.MAX_ROOM_SIZE ≤ ms.length →
      Server.handleMessage now fresh id (some msg) s =
        (Server.rateUpd now id c s, [(id, Server.OutMsg.roomFull)])) := by
  constructor
  · intro s hs r ms h
    exact (Server.reachable_roomsOK s hs r ms h).2.1
  · intro now fresh id msg s c ms hc hrate hty hroom hne hcap
    rw [Server.handleMessage_eq now fresh id (some msg) s c hc]
    rw [hrate]
    simp [Server.dispatch, hty, hne, Server.rateUpd_rooms, hroom, hcap]

/-- Witness for C2: the reachable state `fullState` with room `"r"` at
its 8-member cap, and socket 8's join attempt answered `ROOM_FULL`. -/
theorem spec_c2_witness :
    (Server.Reachable Server.fullState ∧
      Server.fullState.rooms "r" = some [0, 1, 2, 3, 4, 5, 6, 7] ∧
      ([0, 1, 2, 3, 4, 5, 6, 7] : List Server.ConnId).length ≤
        Server.MAX_ROOM_SIZE) ∧
    (Server.fullState.conns 8 = some Server.exConn8 ∧
      (Server.rateAllow 2 Server.exConn8).1 = true ∧
      Server.exJr.type = "JOIN_ROOM" ∧
      Server.fullState.rooms (Server.sanitiseRoomId Server.exJr.roomId) =
        some [0, 1, 2, 3, 4, 5, 6, 7] ∧
      Server.sanitiseRoomId Server.exJr.roomId ≠ "" ∧
      Server.MAX_ROOM_SIZE ≤ ([0, 1, 2, 3, 4, 5, 6, 7] : List Server.ConnId).length ∧
      Server.handleMessage 2 "q8" 8 (some Server.exJr) Server.fullState =
        (Server.rateUpd 2 8 Server.exConn8 Server.fullState,
          [(8, Server.OutMsg.roomFull)])) :=
  ⟨⟨⟨Server.fullEvs, rfl⟩, by decide,
    spec_c2.1 Server.fullState ⟨Server.fullEvs, rfl⟩ "r" [0, 1, 2, 3, 4, 5, 6, 7]
      (by decide)⟩,
   by decide, by decide, rfl, by decide, by decide, by decide,
   spec_c2.2 2 "q8" 8 Server.exJr Server.fullState Server.exConn8
     [0, 1, 2, 3, 4, 5, 6, 7] (by decide) (by decide) rfl (by decide)
     (by decide) (by decide)⟩

namespace Server

/-- A server where socket 0 joined room `"r"` alone (connect at 5, join
at 6 with fresh id `"p0"`). -/
def exState2 : ServerState :=
  runServer [Event.connect 0 5, Event.message 0 6 "p0" (some exJr)]

/-- The connection state socket 0 holds in `exState2`. -/
def exConnJoined : Conn :=
  { currentRoom := some "r", peerId := some "p0", rateBucketStart := 5,
    rateBucketCount := 1, readyState := 1 }

end Server

namespace Variant

/-- A variant-server trace: socket 0 joins room `"a"` and disconnects. -/
def c3Trace : List Event :=
  [ Event.connect 0,
    Event.message 0 "p" (some { type := "JOIN_ROOM", roomId := some "a" }),
    Event.close 0 ]

end Variant

/-- Counterexample to C3 as stated: on the appended server variant, after
the only member of room `"a"` disconnects, the room identifier is still
present in the registry with an empty member set — the close handler
removes the member but never deletes the empty room. -/
theorem spec_c3_cex :
    (Variant.runServer Variant.c3Trace).rooms (some "a") = some [] := by decide

/-- C3 (amended): for the server in `signal_server.js` the invariant
holds — in every reachable state a room present in the registry has at
least one member, a join to an absent (sanitised) room identifier
creates the room with exactly the joiner as member, and the disconnect
of a room's last member deletes the room from the registry.  The server
variant appended to the client file violates the claim: it removes a
closing member from its room but never deletes the empty room. -/
theorem spec_c3 :
    (∀ s, Server.Reachable s → ∀ r ms, s.rooms r = some ms → ms ≠ []) ∧
    (∀ now fresh id msg s c, s.conns id = some c →
      (Server.rateAllow now c).1 = true →
      msg.type = "JOIN_ROOM" →
      Server.sanitiseRoomId msg.roomId ≠ "" →
      s.rooms (Server.sanitiseRoomId msg.roomId) = none →
      (Server.handleMessage now fresh id (some msg) s).1.rooms
          (Server.sanitiseRoomId msg.roomId) = some [id]) ∧
    (∀ id s c r, s.conns id = some c → c.currentRoom = some r →
      s.rooms r = some [id] → (Server.handleClose id s).rooms r = none) := by
  refine ⟨?_, ?_, ?_⟩
  · intro s hs r ms h
    exact (Server.reachable_roomsOK s hs r ms h).1
  · intro now fresh id msg s c hc hrate hty hne habsent
    rw [Server.handleMessage_eq now fresh id (some msg) s c hc]
    rw [hrate]
    simp [Server.dispatch, hty, hne, Server.rateUpd_rooms, habsent, Server.doJoin]
  · intro id s c r hc hcur hroom
    unfold Server.handleClose
    simp [hc, hcur, hroom, List.erase_cons_head]

/-- Witness for the amended C3: room `"r"` is created by socket 0's join
and deleted again when socket 0, its only member, disconnects. -/
theorem spec_c3_witness :
    (Server.Reachable Server.exState2 ∧
      Server.exState2.rooms "r" = some [0] ∧ ([0] : List Server.ConnId) ≠ []) ∧
    (Server.exState1.conns 0 = some Server.exConn ∧
      (Server.rateAllow 6 Server.exConn).1 = true ∧
      Server.exJr.type = "JOIN_ROOM" ∧
      Server.sanitiseRoomId Server.exJr.roomId ≠ "" ∧
      Server.exState1.rooms (Server.sanitiseRoomId Server.exJr.roomId) = none ∧
      (Server.handleMessage 6 "p0" 0 (some Server.exJr) Server.exState1).1.rooms
          (Server.sanitiseRoomId Server.exJr.roomId) = some [0]) ∧
    (Server.exState2.conns 0 = some Server.exConnJoined ∧
      Server.exConnJoined.currentRoom = some "r" ∧
      Server.exState2.rooms "r" = some [0] ∧
      (Server.handleClose 0 Server.exState2).rooms "r" = none) :=
  ⟨⟨⟨[Server.Event.connect 0 5, Server.Event.message 0 6 "p0" (some Server.exJr)],
      rfl⟩, by decide,
    spec_c3.1 Server.exState2
      ⟨[Server.Event.connect 0 5, Server.Event.message 0 6 "p0" (some Server.exJr)],
        rfl⟩ "r" [0] (by decide)⟩,
   ⟨by decide, by decide, rfl, by decide, by decide,
    spec_c3.2.1 6 "p0" 0 Server.exJr Server.exState1 Server.exConn (by decide)
      (by decide) rfl (by decide) (by decide)⟩,
   by decide, rfl, by decide,
   spec_c3.2.2 0 Server.exState2 Server.exConnJoined "r" (by decide) rfl
     (by decide)⟩

namespace Server

/-- Three sockets accepted and joined into room `"r"`. -/
def exRelayEvs : List Event :=
  [ Event.connect 0 0, Event.connect 1 0, Event.connect 2 0,
    Event.message 0 1 "pa" (some exJr), Event.message 1 1 "pb" (some exJr),
    Event.message 2 1 "pc" (some exJr) ]

/-- The server state after `exRelayEvs`. -/
def exRelayState : ServerState := runServer exRelayEvs

/-- The connection state socket 0 holds in `exRelayState`. -/
def exConnA : Conn :=
  { currentRoom := some "r", peerId := some "pa", rateBucketStart := 0,
    rateBucketCount := 1, readyState := 1 }

/-- An inbound `OFFER` whose sender claims a forged `peerId`. -/
def exOffer : InMsg :=
  { type := "OFFER", peerId := some "FAKE", sdp := some "S" }

end Server

namespace Server

theorem isWritable_rateUpd (now : Nat) (id : ConnId) (c : Conn) (s : ServerState)
    (p : ConnId) (hp : p ≠ id) :
    isWritable (rateUpd now id c s) p = isWritable s p := by
  unfold isWritable rateUpd
  simp [hp]

/-- How many times the output list delivers the exact send `o`. -/
def countOut (outs : List (ConnId × OutMsg)) (o : ConnId × OutMsg) : Nat :=
  outs.countP (fun x => decide (x = o))

/-- The exact output list of a rate-admitted relay from a joined sender. -/
theorem relay_outputs (now : Nat) (fresh : String) (id : ConnId) (msg : InMsg)
    (s : ServerState) (c : Conn) (rm : String) (ms : List ConnId)
    (hc : s.conns id = some c) (hrate : (rateAllow now c).1 = true)
    (hty : msg.type ∈ relayTypes) (hcur : c.currentRoom = some rm)
    (hroom : s.rooms rm = some ms) :
    (handleMessage now fresh id (some msg) s).2 =
      ms.filterMap (fun p =>
        if p ≠ id ∧ isWritable s p = true then
          some (p, OutMsg.relay { msg with peerId := c.peerId }) else none) := by
  have hne : ¬msg.type = "JOIN_ROOM" := by
    intro h
    rw [h] at hty
    simp [relayTypes] at hty
  rw [handleMessage_eq now fresh id (some msg) s c hc]
  rw [hrate]
  rw [if_neg (fun h => Bool.noConfusion h)]
  dsimp only [dispatch]
  rw [if_neg hne]
  rw [(rateAllow_fields now c).1, hcur]
  dsimp only
  rw [if_pos hty]
  have hrooms1 : (rateUpd now id c s).rooms rm = some ms := hroom
  rw [hrooms1]
  dsimp only
  rw [(rateAllow_fields now c).2]
  congr 1
  funext p
  by_cases hp : p = id
  · subst hp
    simp
  · rw [isWritable_rateUpd now id c s p hp]

end Server

/-- C1: every copy the server relays of an inbound `OFFER`, `ANSWER` or
`ICE_CANDIDATE` carries the sending connection's server-assigned peer
identifier in its `peerId` field, and the whole handler result is
independent of whatever `peerId` the sender's payload claims. -/
theorem spec_c1 :
    (∀ now fresh id msg s c, s.conns id = some c →
      msg.type ∈ Server.relayTypes →
      ∀ out, out ∈ (Server.handleMessage now fresh id (some msg) s).2 →
        out.2 = Server.OutMsg.relay { msg with peerId := c.peerId }) ∧
    (∀ now fresh id (msg : Server.InMsg) s p q,
      Server.handleMessage now fresh id (some { msg with peerId := p }) s =
        Server.handleMessage now fresh id (some { msg with peerId := q }) s) := by
  constructor
  · intro now fresh id msg s c hc hty out hout
    have hne : ¬msg.type = "JOIN_ROOM" := by
      intro h
      rw [h] at hty
      simp [Server.relayTypes] at hty
    rw [Server.handleMessage_eq now fresh id (some msg) s c hc] at hout
    by_cases hb : (Server.rateAllow now c).1 = false
    · rw [if_pos hb] at hout
      exact absurd hout (List.not_mem_nil out)
    · rw [if_neg hb] at hout
      dsimp only [Server.dispatch] at hout
      rw [if_neg hne] at hout
      rcases hcr : (Server.rateAllow now c).2.currentRoom with _ | rm
      · rw [hcr] at hout
        exact absurd hout (List.not_mem_nil out)
      · rw [hcr] at hout
        dsimp only at hout
        rw [if_pos hty] at hout
        rcases hrm : (Server.rateUpd now id c s).rooms rm with _ | ms
        · rw [hrm] at hout
          exact absurd hout (List.not_mem_nil out)
        · rw [hrm] at hout
          dsimp only at hout
          simp only [List.mem_filterMap] at hout
          obtain ⟨p, _, hpe⟩ := hout
          by_cases hcond : p ≠ id ∧
              Server.isWritable (Server.rateUpd now id c s) p = true
          · rw [if_pos hcond] at hpe
            obtain rfl := Option.some_inj.mp hpe
            simp [(Server.rateAllow_fields now c).2]
          · rw [if_neg hcond] at hpe
            exact absurd hpe Option.noConfusion
  · intro now fresh id msg s p q
    rfl

/-- Witness for C1: socket 0's forged `OFFER` is delivered to socket 1
stamped with socket 0's own peer id `"pa"`, and forging `"X"` versus
`"Y"` makes no difference to the handler result. -/
theorem spec_c1_witness :
    (Server.exRelayState.conns 0 = some Server.exConnA ∧
      Server.exOffer.type ∈ Server.relayTypes ∧
      (1, Server.OutMsg.relay { Server.exOffer with peerId := Server.exConnA.peerId }) ∈
        (Server.handleMessage 2 "f" 0 (some Server.exOffer) Server.exRelayState).2 ∧
      (1, Server.OutMsg.relay { Server.exOffer with peerId := Server.exConnA.peerId }).2 =
        Server.OutMsg.relay { Server.exOffer with peerId := Server.exConnA.peerId }) ∧
    Server.handleMessage 2 "f" 0
        (some { Server.exOffer with peerId := some "X" }) Server.exRelayState =
      Server.handleMessage 2 "f" 0
        (some { Server.exOffer with peerId := some "Y" }) Server.exRelayState :=
  ⟨⟨by decide, by decide, by decide,
    spec_c1.1 2 "f" 0 Server.exOffer Server.exRelayState Server.exConnA
      (by decide) (by decide) _ (by decide)⟩,
   spec_c1.2 2 "f" 0 Server.exOffer Server.exRelayState (some "X") (some "Y")⟩

/-- C6: a rate-admitted `OFFER`/`ANSWER`/`ICE_CANDIDATE` from a joined
sender is delivered exactly once to every other member of the sender's
room whose socket is writable, never to the sender, and only to such
members, always as the re-stamped payload; a sender with no current room
gets its message silently dropped — empty output, no reply, and only the
rate counter changes. -/
theorem spec_c6 :
    (∀ now fresh id msg s c rm ms, s.conns id = some c →
      (Server.rateAllow now c).1 = true →
      msg.type ∈ Server.relayTypes →
      c.currentRoom = some rm →
      s.rooms rm = some ms → ms.Nodup →
      (∀ p, p ∈ ms → p ≠ id → Server.isWritable s p = true →
        Server.countOut (Server.handleMessage now fresh id (some msg) s).2
          (p, Server.OutMsg.relay { msg with peerId := c.peerId }) = 1) ∧
      (∀ m, (id, m) ∉ (Server.handleMessage now fresh id (some msg) s).2) ∧
      (∀ p m, (p, m) ∈ (Server.handleMessage now fresh id (some msg) s).2 →
        p ∈ ms ∧ p ≠ id ∧ Server.isWritable s p = true ∧
          m = Server.OutMsg.relay { msg with peerId := c.peerId })) ∧
    (∀ now fresh id msg s c, s.conns id = some c →
      msg.type ∈ Server.relayTypes →
      c.currentRoom = none →
      Server.handleMessage now fresh id (some msg) s =
        (Server.rateUpd now id c s, [])) := by
  constructor
  · intro now fresh id msg s c rm ms hc hrate hty hcur hroom hnd
    rw [Server.relay_outputs now fresh id msg s c rm ms hc hrate hty hcur hroom]
    set payload := Server.OutMsg.relay { msg with peerId := c.peerId } with hpay
    set f := fun p =>
      if p ≠ id ∧ Server.isWritable s p = true then some (p, payload) else none
      with hf
    have hmemf : ∀ p m, (p, m) ∈ ms.filterMap f ↔
        p ∈ ms ∧ p ≠ id ∧ Server.isWritable s p = true ∧ m = payload := by
      intro p m
      rw [List.mem_filterMap]
      constructor
      · rintro ⟨q, hq, hqe⟩
        by_cases hcond : q ≠ id ∧ Server.isWritable s q = true
        · rw [hf] at hqe
          simp only at hqe
          rw [if_pos hcond] at hqe
          obtain ⟨rfl, rfl⟩ : q = p ∧ payload = m := by
            have := Option.some_inj.mp hqe
            exact ⟨congrArg Prod.fst this, congrArg Prod.snd this⟩
          exact ⟨hq, hcond.1, hcond.2, rfl⟩
        · rw [hf] at hqe
          simp only at hqe
          rw [if_neg hcond] at hqe
          exact absurd hqe Option.noConfusion
      · rintro ⟨hp, hne, hw, rfl⟩
        refine ⟨p, hp, ?_⟩
        rw [hf]
        simp only
        rw [if_pos ⟨hne, hw⟩]
    have hndf : (ms.filterMap f).Nodup := by
      refine List.Nodup.filterMap ?_ hnd
      intro a a' b hb hb'
      rw [hf] at hb hb'
      simp only at hb hb'
      by_cases hca : a ≠ id ∧ Server.isWritable s a = true
      · rw [if_pos hca] at hb
        by_cases hca' : a' ≠ id ∧ Server.isWritable s a' = true
        · rw [if_pos hca'] at hb'
          have h1 := Option.mem_some_iff.mp hb
          have h2 := Option.mem_some_iff.mp hb'
          rw [← h1] at h2
          exact (congrArg Prod.fst h2).symm
        · rw [if_neg hca'] at hb'
          exact absurd hb' (by simp)
      · rw [if_neg hca] at hb
        exact absurd hb (by simp)
    refine ⟨?_, ?_, ?_⟩
    · intro p hp hne hw
      show @List.count _ instBEqOfDecidableEq (p, payload) (ms.filterMap f) = 1
      exact List.count_eq_one_of_mem hndf ((hmemf p payload).mpr ⟨hp, hne, hw, rfl⟩)
    · intro m hm
      exact absurd rfl ((hmemf id m).mp hm).2.1
    · intro p m hm
      exact (hmemf p m).mp hm
  · intro now fresh id msg s c hc hty hcur
    have hne : ¬msg.type = "JOIN_ROOM" := by
      intro h
      rw [h] at hty
      simp [Server.relayTypes] at hty
    rw [Server.handleMessage_eq now fresh id (some msg) s c hc]
    split
    · rfl
    · dsimp only [Server.dispatch]
      rw [if_neg hne]
      rw [(Server.rateAllow_fields now c).1, hcur]

/-- Witness for C6: in the three-member room `"r"`, socket 0's `OFFER`
reaches socket 1 exactly once, never socket 0 itself; and the unjoined
socket of `exState1` has its `OFFER` dropped with no output. -/
theorem spec_c6_witness :
    (Server.exRelayState.conns 0 = some Server.exConnA ∧
      (Server.rateAllow 2 Server.exConnA).1 = true ∧
      Server.exOffer.type ∈ Server.relayTypes ∧
      Server.exConnA.currentRoom = some "r" ∧
      Server.exRelayState.rooms "r" = some [0, 1, 2] ∧
      ([0, 1, 2] : List Server.ConnId).Nodup ∧
      (1 : Server.ConnId) ∈ ([0, 1, 2] : List Server.ConnId) ∧
      (1 : Server.ConnId) ≠ 0 ∧
      Server.isWritable Server.exRelayState 1 = true ∧
      Server.countOut
        (Server.handleMessage 2 "f" 0 (some Server.exOffer) Server.exRelayState).2
        (1, Server.OutMsg.relay { Server.exOffer with peerId := Server.exConnA.peerId }) = 1 ∧
      (0, Server.OutMsg.relay { Server.exOffer with peerId := Server.exConnA.peerId }) ∉
        (Server.handleMessage 2 "f" 0 (some Server.exOffer) Server.exRelayState).2) ∧
    (Server.exState1.conns 0 = some Server.exConn ∧
      Server.exOffer.type ∈ Server.relayTypes ∧
      Server.exConn.currentRoom = none ∧
      Server.handleMessage 6 "g" 0 (some Server.exOffer) Server.exState1 =
        (Server.rateUpd 6 0 Server.exConn Server.exState1, [])) :=
  ⟨⟨by decide, by decide, by decide, rfl, by decide, by decide, by decide,
    by decide, by decide,
    (spec_c6.1 2 "f" 0 Server.exOffer Server.exRelayState Server.exConnA "r"
      [0, 1, 2] (by decide) (by decide) (by decide) rfl (by decide)
      (by decide)).1 1 (by decide) (by decide) (by decide),
    (spec_c6.1 2 "f" 0 Server.exOffer Server.exRelayState Server.exConnA "r"
      [0, 1, 2] (by decide) (by decide) (by decide) rfl (by decide)
      (by decide)).2.1
      (Server.OutMsg.relay { Server.exOffer with peerId := Server.exConnA.peerId })⟩,
   by decide, by decide, rfl,
   spec_c6.2 6 "g" 0 Server.exOffer Server.exState1 Server.exConn (by decide)
     (by decide) rfl⟩

/-- Counterexample to C5 as stated: socket 0's first successful join
assigns peer id `"p1"`, but a second successful `JOIN_ROOM` replaces it
with the fresh `"p2"` — the connection does not keep its original
identifier. -/
theorem spec_c5_cex :
    ((Server.runServer [Server.Event.connect 0 0,
        Server.Event.message 0 1 "p1" (some Server.exJr)]).conns 0).map
      Server.Conn.peerId = some (some "p1") ∧
    ((Server.runServer [Server.Event.connect 0 0,
        Server.Event.message 0 1 "p1" (some Server.exJr),
        Server.Event.message 0 2 "p2" (some Server.exJr)]).conns 0).map
      Server.Conn.peerId = some (some "p2") ∧
    ("p1" : String) ≠ "p2" := by decide

/-- C5 (amended): the peer identifier is (re)assigned at every successful
join, not only the first — any rate-admitted `JOIN_ROOM` with a valid
identifier aimed at a room below capacity overwrites the connection's
peer id with the fresh identifier (and sets its current room), so a
second successful join replaces the original peer id instead of keeping
it. -/
theorem spec_c5 :
    ∀ now fresh id msg s c ms, s.conns id = some c →
      (Server.rateAllow now c).1 = true →
      msg.type = "JOIN_ROOM" →
      Server.sanitiseRoomId msg.roomId ≠ "" →
      s.rooms (Server.sanitiseRoomId msg.roomId) = some ms →
      ms.length < Server.MAX_ROOM_SIZE →
      ((Server.handleMessage now fresh id (some msg) s).1.conns id).map
          Server.Conn.peerId = some (some fresh) ∧
      ((Server.handleMessage now fresh id (some msg) s).1.conns id).map
          Server.Conn.currentRoom =
        some (some (Server.sanitiseRoomId msg.roomId)) := by
  intro now fresh id msg s c ms hc hrate hty hne hroom hlen
  rw [Server.handleMessage_eq now fresh id (some msg) s c hc]
  rw [hrate]
  rw [if_neg (fun h => Bool.noConfusion h)]
  dsimp only [Server.dispatch]
  rw [if_pos hty]
  rw [if_neg hne]
  have hrooms1 : (Server.rateUpd now id c s).rooms
      (Server.sanitiseRoomId msg.roomId) = some ms := hroom
  rw [hrooms1]
  dsimp only
  rw [if_neg (by omega : ¬Server.MAX_ROOM_SIZE ≤ ms.length)]
  simp [Server.doJoin]

/-- Witness for the amended C5: socket 0 of `exState2` (already joined
`"r"` as `"p0"`) joins `"r"` again and ends up with the fresh id
`"p1"`. -/
theorem spec_c5_witness :
    Server.exState2.conns 0 = some Server.exConnJoined ∧
    (Server.rateAllow 7 Server.exConnJoined).1 = true ∧
    Server.exJr.type = "JOIN_ROOM" ∧
    Server.sanitiseRoomId Server.exJr.roomId ≠ "" ∧
    Server.exState2.rooms (Server.sanitiseRoomId Server.exJr.roomId) =
      some [0] ∧
    ([0] : List Server.ConnId).length < Server.MAX_ROOM_SIZE ∧
    (((Server.handleMessage 7 "p1" 0 (some Server.exJr) Server.exState2).1.conns
        0).map Server.Conn.peerId = some (some "p1") ∧
      ((Server.handleMessage 7 "p1" 0 (some Server.exJr) Server.exState2).1.conns
        0).map Server.Conn.currentRoom =
        some (some (Server.sanitiseRoomId Server.exJr.roomId))) :=
  ⟨by decide, by decide, rfl, by decide, by decide, by decide,
   spec_c5 7 "p1" 0 Server.exJr Server.exState2 Server.exConnJoined [0]
     (by decide) (by decide) rfl (by decide) (by decide) (by decide)⟩

namespace Server

/-- Feed `rateAllow` a sequence of message timestamps, collecting the
admission verdict of every message. -/
def rateRun (c : Conn) (ts : List Nat) : List Bool × Conn :=
  match ts with
  | [] => ([], c)
  | t :: rest =>
    let r := rateAllow t c
    let rr := rateRun r.2 rest
    (r.1 :: rr.1, rr.2)

/-- How many messages of a verdict sequence were admitted. -/
def allowedCount (bs : List Bool) : Nat := bs.countP (fun b => b)

theorem rateRun_allowedCount (ts : List Nat) (c : Conn)
    (hin : ∀ t ∈ ts, t - c.rateBucketStart ≤ RATE_LIMIT_WINDOW) :
    allowedCount (rateRun c ts).1 =
      min ts.length (RATE_LIMIT_MAX_MSG - c.rateBucketCount) := by
  induction ts generalizing c with
  | nil => simp [rateRun, allowedCount]
  | cons t rest ih =>
    have hnr : ¬RATE_LIMIT_WINDOW < t - c.rateBucketStart := by
      have := hin t (List.mem_cons_self t rest)
      omega
    have hstep : rateAllow t c =
        (decide (c.rateBucketCount + 1 ≤ RATE_LIMIT_MAX_MSG),
          { c with rateBucketCount := c.rateBucketCount + 1 }) := by
      unfold rateAllow
      rw [if_neg hnr]
    have hrest := ih { c with rateBucketCount := c.rateBucketCount + 1 }
      (fun t2 ht2 => hin t2 (List.mem_cons_of_mem t ht2))
    unfold rateRun
    rw [hstep]
    unfold allowedCount at hrest ⊢
    rw [List.countP_cons]
    rw [hrest]
    dsimp only
    by_cases hcap : c.rateBucketCount + 1 ≤ RATE_LIMIT_MAX_MSG
    · simp only [decide_eq_true hcap, if_pos, List.length_cons]
      omega
    · simp only [decide_eq_false hcap, List.length_cons]
      simp
      omega

theorem rateRun_verdicts (ts : List Nat) (c : Conn)
    (hin : ∀ t ∈ ts, t - c.rateBucketStart ≤ RATE_LIMIT_WINDOW) :
    (rateRun c ts).1 = (List.range ts.length).map
      (fun i => decide (c.rateBucketCount + i + 1 ≤ RATE_LIMIT_MAX_MSG)) := by
  induction ts generalizing c with
  | nil => simp [rateRun]
  | cons t rest ih =>
    have hnr : ¬RATE_LIMIT_WINDOW < t - c.rateBucketStart := by
      have := hin t (List.mem_cons_self t rest)
      omega
    have hstep : rateAllow t c =
        (decide (c.rateBucketCount + 1 ≤ RATE_LIMIT_MAX_MSG),
          { c with rateBucketCount := c.rateBucketCount + 1 }) := by
      unfold rateAllow
      rw [if_neg hnr]
    have hrest := ih { c with rateBucketCount := c.rateBucketCount + 1 }
      (fun t2 ht2 => hin t2 (List.mem_cons_of_mem t ht2))
    unfold rateRun
    rw [hstep]
    simp only [List.length_cons, List.range_succ_eq_map, List.map_cons,
      List.map_map]
    congr 1
    rw [hrest]
    dsimp only
    congr 1
    funext i
    simp only [Function.comp_apply]
    rw [decide_eq_decide]
    constructor <;> intro <;> omega

end Server

/-- C7: the fixed-window limiter resets its window start and counter when
the current time exceeds the window start by more than the window length
(the first message of the new window being admitted with counter 1),
increments the counter on every message and admits exactly those whose
counter is within the cap; under sustained in-window flooding from a
fresh window the i-th message is admitted iff `i ≤ 30`, so exactly
`min n 30` of `n` messages are processed; and a rate-rejected message is
dropped silently — no output at all, the connection stays, only its rate
fields move. -/
theorem spec_c7 :
    (∀ c t, Server.RATE_LIMIT_WINDOW < t - c.rateBucketStart →
      Server.rateAllow t c =
        (true, { c with rateBucketStart := t, rateBucketCount := 1 })) ∧
    (∀ c t,
      (Server.rateAllow t c).2.rateBucketCount =
        (if Server.RATE_LIMIT_WINDOW < t - c.rateBucketStart then 0
          else c.rateBucketCount) + 1 ∧
      ((Server.rateAllow t c).1 = true ↔
        (Server.rateAllow t c).2.rateBucketCount ≤ Server.RATE_LIMIT_MAX_MSG)) ∧
    (∀ ts c, c.rateBucketCount = 0 →
      (∀ t ∈ ts, t - c.rateBucketStart ≤ Server.RATE_LIMIT_WINDOW) →
      Server.allowedCount (Server.rateRun c ts).1 =
        min ts.length Server.RATE_LIMIT_MAX_MSG ∧
      (Server.rateRun c ts).1 = (List.range ts.length).map
        (fun i => decide (i + 1 ≤ Server.RATE_LIMIT_MAX_MSG))) ∧
    (∀ now fresh id parsed s c, s.conns id = some c →
      (Server.rateAllow now c).1 = false →
      Server.handleMessage now fresh id parsed s =
        (Server.rateUpd now id c s, [])) := by
  refine ⟨?_, ?_, ?_, ?_⟩
  · intro c t h
    unfold Server.rateAllow
    rw [if_pos h]
    rfl
  · intro c t
    unfold Server.rateAllow
    split <;> simp [Server.RATE_LIMIT_MAX_MSG]
  · intro ts c hzero hin
    constructor
    · rw [Server.rateRun_allowedCount ts c hin, hzero]
      simp
    · rw [Server.rateRun_verdicts ts c hin, hzero]
      simp
  · intro now fresh id parsed s c hc hfalse
    rw [Server.handleMessage_eq now fresh id parsed s c hc]
    rw [hfalse]
    rw [if_pos rfl]

namespace Server

/-- A connection that already hit the per-window cap (counter 30). -/
def exSpamConn : Conn :=
  { currentRoom := none, peerId := none, rateBucketStart := 0,
    rateBucketCount := 30, readyState := 1 }

/-- A server whose socket 0 is `exSpamConn`. -/
def exSpamState : ServerState :=
  { rooms := fun _ => none,
    conns := fun i => if i = 0 then some exSpamConn else none,
    ice := [] }

end Server

/-- Witness for C7: a window reset at time 2000, the counter bookkeeping
at time 6, a 35-message in-window flood of which exactly
`min 35 30 = 30` are admitted, and a capped connection whose next
message is dropped with no output. -/
theorem spec_c7_witness :
    (Server.RATE_LIMIT_WINDOW < 2000 - Server.exConn.rateBucketStart ∧
      Server.rateAllow 2000 Server.exConn =
        (true,
          { Server.exConn with rateBucketStart := 2000, rateBucketCount := 1 })) ∧
    ((Server.rateAllow 6 Server.exConn).2.rateBucketCount =
        (if Server.RATE_LIMIT_WINDOW < 6 - Server.exConn.rateBucketStart then 0
          else Server.exConn.rateBucketCount) + 1 ∧
      ((Server.rateAllow 6 Server.exConn).1 = true ↔
        (Server.rateAllow 6 Server.exConn).2.rateBucketCount ≤
          Server.RATE_LIMIT_MAX_MSG)) ∧
    (Server.exConn8.rateBucketCount = 0 ∧
      (∀ t ∈ List.replicate 35 1,
        t - Server.exConn8.rateBucketStart ≤ Server.RATE_LIMIT_WINDOW) ∧
      Server.allowedCount (Server.rateRun Server.exConn8
          (List.replicate 35 1)).1 =
        min (List.replicate 35 1).length Server.RATE_LIMIT_MAX_MSG ∧
      (Server.rateRun Server.exConn8 (List.replicate 35 1)).1 =
        (List.range (List.replicate 35 1).length).map
          (fun i => decide (i + 1 ≤ Server.RATE_LIMIT_MAX_MSG))) ∧
    (Server.exSpamState.conns 0 = some Server.exSpamConn ∧
      (Server.rateAllow 1 Server.exSpamConn).1 = false ∧
      Server.handleMessage 1 "f" 0 (some Server.exOffer) Server.exSpamState =
        (Server.rateUpd 1 0 Server.exSpamConn Server.exSpamState, [])) :=
  ⟨⟨by decide, spec_c7.1 Server.exConn 2000 (by decide)⟩,
   spec_c7.2.1 Server.exConn 6,
   ⟨rfl, by decide,
    spec_c7.2.2.1 (List.replicate 35 1) Server.exConn8 rfl (by decide)⟩,
   by decide, by decide,
   spec_c7.2.2.2 1 "f" 0 (some Server.exOffer) Server.exSpamState
     Server.exSpamConn (by decide) (by decide)⟩

namespace Server

theorem updateIce_keep (cache : List String) (r : FetchResult)
    (h : fetchSuccess r = false) : updateIce cache r = cache := by
  cases r with
  | netError => rfl
  | unparseable => rfl
  | nonArray => rfl
  | arr xs =>
    simp only [updateIce]
    simp only [fetchSuccess] at h
    rw [if_neg (of_decide_eq_false h)]

theorem updateIce_ne_empty (cache : List String) (r : FetchResult)
    (h : cache ≠ []) : updateIce cache r ≠ [] := by
  cases r with
  | netError => exact h
  | unparseable => exact h
  | nonArray => exact h
  | arr xs =>
    simp only [updateIce]
    split
    · intro he
      subst he
      simp_all
    · exact h

theorem foldl_updateIce_ne_empty (hist : List FetchResult)
    (cache : List String) (h : cache ≠ []) :
    hist.foldl updateIce cache ≠ [] := by
  induction hist generalizing cache with
  | nil => exact h
  | cons r rest ih => exact ih (updateIce cache r) (updateIce_ne_empty cache r h)

theorem foldl_empty_no_success (hist : List FetchResult) (cache : List String)
    (h : hist.foldl updateIce cache = []) :
    ∀ r ∈ hist, fetchSuccess r = false := by
  induction hist generalizing cache with
  | nil => intro r hr; cases hr
  | cons r0 rest ih =>
    intro r hr
    have hsucc : fetchSuccess r0 = false := by
      by_cases hs : fetchSuccess r0 = true
      · exfalso
        cases hr0 : r0 with
        | netError => rw [hr0] at hs; exact Bool.noConfusion hs
        | unparseable => rw [hr0] at hs; exact Bool.noConfusion hs
        | nonArray => rw [hr0] at hs; exact Bool.noConfusion hs
        | arr xs =>
          rw [hr0] at hs
          simp only [fetchSuccess] at hs
          have hxs : 0 < xs.length := of_decide_eq_true hs
          have hup : updateIce cache (FetchResult.arr xs) = xs := by
            simp only [updateIce]
            rw [if_pos hxs]
          rw [List.foldl_cons, hr0, hup] at h
          exact foldl_updateIce_ne_empty rest xs
            (fun he => by subst he; simp at hxs) h
      · exact Bool.eq_false_iff.mpr hs
    rcases List.mem_cons.mp hr with rfl | hmem
    · exact hsucc
    · exact ih (updateIce cache r0) (by rw [List.foldl_cons] at h; exact h) r hmem

theorem doJoin_ice (fresh : String) (id : ConnId) (roomId : String)
    (ms : List ConnId) (s : ServerState) (c : Conn) :
    (doJoin fresh id roomId ms s c).1.ice = s.ice := rfl

theorem dispatch_ice (fresh : String) (id : ConnId) (msg : InMsg)
    (s : ServerState) (c : Conn) : (dispatch fresh id msg s c).1.ice = s.ice := by
  unfold dispatch
  split
  · dsimp only
    split
    · rfl
    · split
      · split
        · rfl
        · exact doJoin_ice _ _ _ _ _ _
      · exact doJoin_ice _ _ _ _ _ _
  · split
    · rfl
    · split
      · split
        · rfl
        · rfl
      · rfl

theorem handleMessage_ice (now : Nat) (fresh : String) (id : ConnId)
    (parsed : Option InMsg) (s : ServerState) :
    (handleMessage now fresh id parsed s).1.ice = s.ice := by
  unfold handleMessage
  split
  · rfl
  · dsimp only
    split
    · rfl
    · split
      · rfl
      · exact dispatch_ice _ _ _ _ _

theorem handleClose_ice (id : ConnId) (s : ServerState) :
    (handleClose id s).ice = s.ice := by
  unfold handleClose
  split
  · rfl
  · dsimp only
    split
    · rfl
    · split
      · rfl
      · split
        · rfl
        · rfl

theorem handleConnect_ice (id : ConnId) (now : Nat) (s : ServerState) :
    (handleConnect id now s).ice = s.ice := by
  unfold handleConnect
  split
  · rfl
  · rfl

theorem handleSetReady_ice (id : ConnId) (v : Nat) (s : ServerState) :
    (handleSetReady id v s).ice = s.ice := by
  unfold handleSetReady
  split
  · rfl
  · rfl

theorem foldl_stepEv_ice (evs : List Event) (s : ServerState) :
    (evs.foldl stepEv s).ice = (fetchesOf evs).foldl updateIce s.ice := by
  induction evs generalizing s with
  | nil => rfl
  | cons e rest ih =>
    rw [List.foldl_cons]
    rw [ih (stepEv s e)]
    cases e with
    | connect id2 now2 =>
      have h2 : (stepEv s (Event.connect id2 now2)).ice = s.ice :=
        handleConnect_ice id2 now2 s
      rw [h2]
      rfl
    | message id2 now2 fresh2 parsed2 =>
      have h2 : (stepEv s (Event.message id2 now2 fresh2 parsed2)).ice = s.ice :=
        handleMessage_ice now2 fresh2 id2 parsed2 s
      rw [h2]
      rfl
    | close id2 =>
      have h2 : (stepEv s (Event.close id2)).ice = s.ice := handleClose_ice id2 s
      rw [h2]
      rfl
    | setReady id2 v2 =>
      have h2 : (stepEv s (Event.setReady id2 v2)).ice = s.ice :=
        handleSetReady_ice id2 v2 s
      rw [h2]
      rfl
    | fetch r => rfl

/-- The ICE cache of any run is precisely the fold of the fetch results
over the empty initial cache. -/
theorem runServer_ice (evs : List Event) :
    (runServer evs).ice = (fetchesOf evs).foldl updateIce [] :=
  foldl_stepEv_ice evs initState

end Server

/-- C9: a failed credential fetch (network error, unparseable body,
non-array body, or empty array) leaves the cached snapshot unchanged; a
non-empty snapshot stays non-empty across failed refreshes; a run whose
cache is empty has had no successful fetch at all; and a successful join
is answered with `ASSIGNED_PEER_ID` carrying exactly the current cached
snapshot. -/
theorem spec_c9 :
    (∀ cache r, Server.fetchSuccess r = false →
      Server.updateIce cache r = cache) ∧
    (∀ cache r, cache ≠ [] → Server.fetchSuccess r = false →
      Server.updateIce cache r ≠ []) ∧
    (∀ evs, (Server.runServer evs).ice = [] →
      ∀ r ∈ Server.fetchesOf evs, Server.fetchSuccess r = false) ∧
    (∀ now fresh id msg s c ms, s.conns id = some c →
      (Server.rateAllow now c).1 = true → msg.type = "JOIN_ROOM" →
      Server.sanitiseRoomId msg.roomId ≠ "" →
      s.rooms (Server.sanitiseRoomId msg.roomId) = some ms →
      ms.length < Server.MAX_ROOM_SIZE →
      (Server.handleMessage now fresh id (some msg) s).2.head? =
        some (id, Server.OutMsg.assignedPeerId fresh s.ice)) := by
  refine ⟨?_, ?_, ?_, ?_⟩
  · exact fun cache r h => Server.updateIce_keep cache r h
  · exact fun cache r h _ => Server.updateIce_ne_empty cache r h
  · intro evs h
    rw [Server.runServer_ice] at h
    exact Server.foldl_empty_no_success _ _ h
  · intro now fresh id msg s c ms hc hrate hty hne hroom hlen
    rw [Server.handleMessage_eq now fresh id (some msg) s c hc]
    rw [hrate]
    rw [if_neg (fun h => Bool.noConfusion h)]
    dsimp only [Server.dispatch]
    rw [if_pos hty]
    rw [if_neg hne]
    have hrooms1 : (Server.rateUpd now id c s).rooms
        (Server.sanitiseRoomId msg.roomId) = some ms := hroom
    rw [hrooms1]
    dsimp only
    rw [if_neg (by omega : ¬Server.MAX_ROOM_SIZE ≤ ms.length)]
    simp [Server.doJoin]
    rfl

/-- Witness for C9: a network error and an unparseable body keep a
non-empty cache; a run of two failed fetches ends with an empty cache
and indeed no successful fetch; socket 0's re-join of `exState2` is
answered with the cached (here empty) snapshot. -/
theorem spec_c9_witness :
    (Server.fetchSuccess Server.FetchResult.netError = false ∧
      Server.updateIce ["turn:a"] Server.FetchResult.netError = ["turn:a"]) ∧
    ((["turn:a"] : List String) ≠ [] ∧
      Server.fetchSuccess Server.FetchResult.unparseable = false ∧
      Server.updateIce ["turn:a"] Server.FetchResult.unparseable ≠ []) ∧
    ((Server.runServer [Server.Event.fetch Server.FetchResult.netError,
        Server.Event.fetch (Server.FetchResult.arr [])]).ice = [] ∧
      Server.FetchResult.netError ∈ Server.fetchesOf
        [Server.Event.fetch Server.FetchResult.netError,
         Server.Event.fetch (Server.FetchResult.arr [])] ∧
      Server.fetchSuccess Server.FetchResult.netError = false) ∧
    (Server.exState2.conns 0 = some Server.exConnJoined ∧
      (Server.rateAllow 7 Server.exConnJoined).1 = true ∧
      Server.exJr.type = "JOIN_ROOM" ∧
      Server.sanitiseRoomId Server.exJr.roomId ≠ "" ∧
      Server.exState2.rooms (Server.sanitiseRoomId Server.exJr.roomId) =
        some [0] ∧
      ([0] : List Server.ConnId).length < Server.MAX_ROOM_SIZE ∧
      (Server.handleMessage 7 "p1" 0 (some Server.exJr) Server.exState2).2.head? =
        some (0, Server.OutMsg.assignedPeerId "p1" Server.exState2.ice)) :=
  ⟨⟨by decide, spec_c9.1 ["turn:a"] Server.FetchResult.netError (by decide)⟩,
   ⟨by decide, by decide,
    spec_c9.2.1 ["turn:a"] Server.FetchResult.unparseable (by decide) (by decide)⟩,
   ⟨by decide,
    by decide,
    spec_c9.2.2.1 [Server.Event.fetch Server.FetchResult.netError,
        Server.Event.fetch (Server.FetchResult.arr [])] (by decide)
      Server.FetchResult.netError (by decide)⟩,
   by decide, by decide, rfl, by decide, by decide, by decide,
   spec_c9.2.2.2 7 "p1" 0 Server.exJr Server.exState2 Server.exConnJoined [0]
     (by decide) (by decide) rfl (by decide) (by decide) (by decide)⟩

namespace Client

theorem mapGet_mapSet (m : List (Option String × Nat)) (k : Option String)
    (v : Nat) : mapGet (mapSet m k v) k = some v := by
  induction m with
  | nil => simp [mapSet, mapGet]
  | cons kv rest ih =>
    by_cases hk : kv.1 = k
    · unfold mapSet
      rw [if_pos hk]
      unfold mapGet
      rw [if_pos hk]
    · unfold mapSet
      rw [if_neg hk]
      unfold mapGet
      rw [if_neg hk]
      exact ih

/-- A host-side trace in which the remote peer's candidate arrives after
the offer was made but before the answer: the transport exists, has no
remote description yet, and the candidate is neither added nor kept. -/
def c4Trace : List CEvent :=
  [ CEvent.signal { type := "PEER_JOINED", peerId := some "c" } "sdpO",
    CEvent.signal { type := "ICE_CANDIDATE", peerId := some "c",
                    candidate := some "cand1" } "",
    CEvent.signal { type := "ANSWER", peerId := some "c",
                    sdp := some "sdpA" } "" ]

/-- A host orchestrator that has just offered to peer `"c"`. -/
def exClient1 : ClientState :=
  clientRun "host" [CEvent.signal { type := "PEER_JOINED", peerId := some "c" } "sdpO"]

/-- The transport record `exClient1` holds at handle 0. -/
def exPC0 : PCRec :=
  { remotePid := some "c", remoteDescSet := false,
    signalingState := "have-local-offer", addedCandidates := [],
    closed := false, onIceRegistered := true, onDataChannelRegistered := false }

/-- The offer message `exClient2` starts from. -/
def exOfferMsg : CMsg := { type := "OFFER", peerId := some "h", sdp := some "S" }

/-- A client orchestrator that has handled one offer from host `"h"`. -/
def exClient2 : ClientState :=
  clientRun "client" [CEvent.signal exOfferMsg "sdpA"]

/-- The transport record `exClient2` holds at handle 0. -/
def exPCh : PCRec :=
  { remotePid := some "h", remoteDescSet := true, signalingState := "stable",
    addedCandidates := [], closed := false, onIceRegistered := true,
    onDataChannelRegistered := true }

/-- A candidate message from peer `"c"`. -/
def exIceC : CMsg :=
  { type := "ICE_CANDIDATE", peerId := some "c", candidate := some "cand1" }

/-- A candidate message from peer `"h"`. -/
def exIceH : CMsg :=
  { type := "ICE_CANDIDATE", peerId := some "h", candidate := some "c9" }

end Client

/-- Counterexample to C4 as stated: on the host side, a candidate that
arrives for peer `"c"` after the offer but before the answer finds a
transport without a remote description; `addIceCandidate`'s rejection is
swallowed, nothing is buffered, and after the remote description is
applied (the `ANSWER`) the transport's added-candidate list is still
empty — the candidate was dropped, not buffered and flushed. -/
theorem spec_c4_cex :
    ((Client.clientRun "host" Client.c4Trace).pcs.get? 0).map
      (fun pc => (pc.remoteDescSet, pc.addedCandidates)) = some (true, []) := by
  decide

/-- C4 (amended): the client buffers nothing.  An `ICE_CANDIDATE` for a
peer with no transport in the session map is ignored outright; one for a
transport that has no remote description yet is passed to
`addIceCandidate` immediately, whose rejection is swallowed, leaving the
state unchanged — the candidate is dropped, never replayed; only when
the transport already has a remote description is the candidate added
(immediately, in arrival order). -/
theorem spec_c4 :
    (∀ role msg extSdp s, msg.type = "ICE_CANDIDATE" →
      Client.mapGet s.peerConnections msg.peerId = none →
      Client.handleSignal role msg extSdp s = (s, [])) ∧
    (∀ role msg extSdp s h pc cand, msg.type = "ICE_CANDIDATE" →
      msg.candidate = some cand →
      Client.mapGet s.peerConnections msg.peerId = some h →
      s.pcs[h]? = some pc →
      pc.remoteDescSet = false →
      Client.handleSignal role msg extSdp s = (s, [])) ∧
    (∀ role msg extSdp s h pc cand, msg.type = "ICE_CANDIDATE" →
      msg.candidate = some cand →
      Client.mapGet s.peerConnections msg.peerId = some h →
      s.pcs[h]? = some pc →
      pc.remoteDescSet = true →
      Client.handleSignal role msg extSdp s =
        (Client.setPC s h
          { pc with addedCandidates := pc.addedCandidates ++ [cand] }, [])) := by
  refine ⟨?_, ?_, ?_⟩
  · intro role msg extSdp s hty hget
    simp [Client.handleSignal, hty, hget]
  · intro role msg extSdp s h pc cand hty hcand hget hpc hrd
    simp [Client.handleSignal, hty, hcand, hget, hpc, hrd]
  · intro role msg extSdp s h pc cand hty hcand hget hpc hrd
    simp [Client.handleSignal, hty, hcand, hget, hpc, hrd]

/-- Witness for the amended C4: a candidate for an unknown peer is a
no-op; `exClient1`'s pre-answer candidate is dropped with the state
unchanged; `exClient2`'s post-description candidate is added at once. -/
theorem spec_c4_witness :
    (Client.exIceC.type = "ICE_CANDIDATE" ∧
      Client.mapGet Client.initClient.peerConnections Client.exIceC.peerId = none ∧
      Client.handleSignal "client" Client.exIceC "" Client.initClient =
        (Client.initClient, [])) ∧
    (Client.exIceC.type = "ICE_CANDIDATE" ∧
      Client.exIceC.candidate = some "cand1" ∧
      Client.mapGet Client.exClient1.peerConnections Client.exIceC.peerId =
        some 0 ∧
      Client.exClient1.pcs[0]? = some Client.exPC0 ∧
      Client.exPC0.remoteDescSet = false ∧
      Client.handleSignal "host" Client.exIceC "" Client.exClient1 =
        (Client.exClient1, [])) ∧
    (Client.exIceH.type = "ICE_CANDIDATE" ∧
      Client.exIceH.candidate = some "c9" ∧
      Client.mapGet Client.exClient2.peerConnections Client.exIceH.peerId =
        some 0 ∧
      Client.exClient2.pcs[0]? = some Client.exPCh ∧
      Client.exPCh.remoteDescSet = true ∧
      Client.handleSignal "client" Client.exIceH "" Client.exClient2 =
        (Client.setPC Client.exClient2 0
          { Client.exPCh with
            addedCandidates := Client.exPCh.addedCandidates ++ ["c9"] }, [])) :=
  ⟨⟨rfl, by decide,
    spec_c4.1 "client" Client.exIceC "" Client.initClient rfl (by decide)⟩,
   ⟨rfl, rfl, by decide, by decide, rfl,
    spec_c4.2.1 "host" Client.exIceC "" Client.exClient1 0 Client.exPC0 "cand1"
      rfl rfl (by decide) (by decide) rfl⟩,
   rfl, rfl, by decide, by decide, rfl,
   spec_c4.2.2 "client" Client.exIceH "" Client.exClient2 0 Client.exPCh "c9"
     rfl rfl (by decide) (by decide) rfl⟩

/-- C10: on a client-role orchestrator, an `OFFER` whose sender already
has a session creates a fresh transport with full wiring and stores its
handle in `peerConnections` under that peer id, overwriting the old
entry; the old transport record is untouched by the replacement — not
closed, candidate callback still registered; the data channel of the new
transport is stored (overwriting) when its channel event later fires. -/
theorem spec_c10 :
    ∀ msg extSdp s h, msg.type = "OFFER" →
      Client.mapGet s.peerConnections msg.peerId = some h →
      h < s.pcs.length →
      (Client.handleSignal "client" msg extSdp s).1.pcs.length =
        s.pcs.length + 1 ∧
      Client.mapGet
          (Client.handleSignal "client" msg extSdp s).1.peerConnections
          msg.peerId = some s.pcs.length ∧
      s.pcs.length ≠ h ∧
      (Client.handleSignal "client" msg extSdp s).1.pcs[h]? = s.pcs[h]? ∧
      (Client.handleSignal "client" msg extSdp s).1.pcs[s.pcs.length]? =
        some (Client.freshOfferPC msg.peerId) ∧
      (Client.handleSignal "client" msg extSdp s).1.dataChannels =
        s.dataChannels ∧
      Client.mapGet (Client.clientStep "client"
          (Client.handleSignal "client" msg extSdp s).1
          (Client.CEvent.channelEvent s.pcs.length)).dataChannels msg.peerId =
        some s.nextCh := by
  intro msg extSdp s h hty hget hlt
  have hres : Client.handleSignal "client" msg extSdp s =
      Client.clientHandleOffer msg.peerId extSdp s := by
    simp [Client.handleSignal, hty]
  rw [hres]
  unfold Client.clientHandleOffer
  dsimp only
  refine ⟨by simp, Client.mapGet_mapSet _ _ _, by omega,
    List.getElem?_append_left hlt, List.getElem?_concat_length _ _, rfl, ?_⟩
  unfold Client.clientStep
  dsimp only
  have hg : (s.pcs ++ [Client.freshOfferPC msg.peerId]).get? s.pcs.length =
      some (Client.freshOfferPC msg.peerId) := by
    simp [List.get?_eq_getElem?]
  rw [hg]
  dsimp only [Client.freshOfferPC]
  exact Client.mapGet_mapSet _ _ _

/-- Witness for C10: `exClient2` already has a session for host `"h"` at
handle 0; a second `OFFER` from `"h"` installs handle 1, leaves the old
record at handle 0 untouched, and the following channel event stores the
new data channel under `"h"`. -/
theorem spec_c10_witness :
    Client.exOfferMsg.type = "OFFER" ∧
    Client.mapGet Client.exClient2.peerConnections Client.exOfferMsg.peerId =
      some 0 ∧
    0 < Client.exClient2.pcs.length ∧
    ((Client.handleSignal "client" Client.exOfferMsg "sdpA2"
        Client.exClient2).1.pcs.length = Client.exClient2.pcs.length + 1 ∧
      Client.mapGet (Client.handleSignal "client" Client.exOfferMsg "sdpA2"
          Client.exClient2).1.peerConnections Client.exOfferMsg.peerId =
        some Client.exClient2.pcs.length ∧
      Client.exClient2.pcs.length ≠ 0 ∧
      (Client.handleSignal "client" Client.exOfferMsg "sdpA2"
          Client.exClient2).1.pcs[0]? = Client.exClient2.pcs[0]? ∧
      (Client.handleSignal "client" Client.exOfferMsg "sdpA2"
          Client.exClient2).1.pcs[Client.exClient2.pcs.length]? =
        some (Client.freshOfferPC Client.exOfferMsg.peerId) ∧
      (Client.handleSignal "client" Client.exOfferMsg "sdpA2"
          Client.exClient2).1.dataChannels = Client.exClient2.dataChannels ∧
      Client.mapGet (Client.clientStep "client"
          (Client.handleSignal "client" Client.exOfferMsg "sdpA2"
            Client.exClient2).1
          (Client.CEvent.channelEvent Client.exClient2.pcs.length)).dataChannels
          Client.exOfferMsg.peerId = some Client.exClient2.nextCh) :=
  ⟨rfl, by decide, by decide,
   spec_c10 Client.exOfferMsg "sdpA2" Client.exClient2 0 rfl (by decide)
     (by decide)⟩
